import Mathlib

/-!
Shallow embedding of examples/bayesian_linear_regression.py over the reals.
Numeric arrays become lists, an n x 2 table becomes a list of pairs, and the
random draws of norm.rvs after ed.set_seed(0) become an explicit stream of
noise values.  The top-level statements of the script are embedded as an
explicit step trace.
-/

namespace Edward

/-- Real-valued model of numpy.linspace a b with m evenly spaced points and
the endpoint included: point i is a + (b - a) * i / (m - 1).  With m = 1 the
division-by-zero convention of the reals yields the single point a, matching
numpy; with m = 0 the list is empty. -/
def linspace (a b : ℚ) (m : ℕ) : List ℚ :=
  (List.range m).map (fun i : ℕ => a + (b - a) * (i : ℚ) / ((m : ℚ) - 1))

/-- The LinearModel class: fields lik_variance, prior_variance, num_vars. -/
structure LinearModel where
  lik_variance : ℚ
  prior_variance : ℚ
  num_vars : ℕ

/-- LinearModel.__init__: stores the two variances and sets num_vars = 2.
The script instantiates it with the default arguments 0.01 and 0.01. -/
def LinearModel.init (lik_variance prior_variance : ℚ) : LinearModel :=
  ⟨lik_variance, prior_variance, 2⟩

/-- LinearModel.log_prob following the source line by line: y and x are the
first and second columns of xs; log_prior is -prior_variance * rowsum(zs*zs);
mus is the n x S matrix matmul(x, W) + b with W = zs[:, 0] and b = zs[:, 1];
log_lik is -colsum((mus - y)^2) / lik_variance; the result is
log_lik + log_prior, a vector of length S. -/
def LinearModel.log_prob (m : LinearModel) (xs zs : List (ℚ × ℚ)) : List ℚ :=
  let y := xs.map Prod.fst
  let x := xs.map Prod.snd
  let log_prior := zs.map (fun z => -m.prior_variance * (z.1 * z.1 + z.2 * z.2))
  let mus := x.map (fun xi => zs.map (fun z => xi * z.1 + z.2))
  let sq := List.zipWith (fun row yi => row.map (fun mu => (mu - yi) ^ 2)) mus y
  let log_lik := (List.range zs.length).map
    (fun s => -((sq.map (fun row => row.getD s 0)).sum) / m.lik_variance)
  List.zipWith (fun a b => a + b) log_lik log_prior

/-- Calling the method log_prob on a model object: the body assigns no
attribute of self, so the object after the call is the object before it. -/
def LinearModel.log_prob_run (m : LinearModel) (xs zs : List (ℚ × ℚ)) :
    List ℚ × LinearModel :=
  (m.log_prob xs zs, m)

/-- build_toy_dataset n_data noise: x is the concatenation of two linspaces of
n_data / 2 points (integer division), the noise draws of norm.rvs of size
n_data after ed.set_seed(0) are the first n_data values of the stream noise,
y = 0.075 * x + noise elementwise, x is rescaled by (x - 4) / 4, and the
result concatenates y and x as the two columns of an n_data x 2 table.  The
elementwise addition and the reshapes to (n_data, 1) demand matching lengths;
where numpy raises an error on a mismatch the embedding returns none. -/
def build_toy_dataset (n_data : ℕ) (noise : ℕ → ℚ) : Option (List (ℚ × ℚ)) :=
  let x := linspace 0 2 (n_data / 2) ++ linspace 6 8 (n_data / 2)
  let rvs := (List.range n_data).map noise
  if x.length = rvs.length then
    let y := List.zipWith (fun xi e => 0.075 * xi + e) x rvs
    let xr := x.map (fun v => (v - 4.0) / 4.0)
    if xr.length = n_data ∧ y.length = n_data then
      some (List.zipWith (fun yi xi => (yi, xi)) y xr)
    else none
  else none

/-- The raw input value of data point i before rescaling: entry i of the
concatenation of the two linspaces. -/
def toy_x (n : ℕ) (i : ℕ) : ℚ :=
  (linspace 0 2 (n / 2) ++ linspace 6 8 (n / 2)).getD i 0

/-- Running build_toy_dataset with the global seed state g: the first
statement ed.set_seed(0) replaces g by 0, and the draws then come from the
stream of the seeded generator rng applied to seed 0, independent of g. -/
def build_toy_dataset_run (rng : ℕ → ℕ → ℚ) (n_data : ℕ) (g : ℕ) :
    Option (List (ℚ × ℚ)) × ℕ :=
  (build_toy_dataset n_data (rng 0), 0)

/-- Closed-form log-density of Normal(x | mu, v) with variance v, written
from the specification: -(x - mu)^2 / (2 v) - log (sqrt (2 pi v)). -/
noncomputable def normalLogPdf (x mu v : ℝ) : ℝ :=
  -((x - mu) ^ 2 / (2 * v)) - Real.log (Real.sqrt (2 * Real.pi * v))

/-- The reference value of the specification for one weight vector z: the
Gaussian log-likelihood of the data rows, sum over i of
log Normal(y_i | x_i * z_0 + z_1, lv), plus the Gaussian log-prior,
sum over j of log Normal(z_j | 0, pv). -/
noncomputable def gaussianLogJoint (lv pv : ℝ) (xs : List (ℝ × ℝ)) (z : ℝ × ℝ) : ℝ :=
  (xs.map (fun p => normalLogPdf p.1 (p.2 * z.1 + z.2) lv)).sum
    + (normalLogPdf z.1 0 pv + normalLogPdf z.2 0 pv)

/-- One top-level statement of the script, or one statement executed inside
build_toy_dataset. -/
inductive Step where
  | setSeed (s : ℕ)
  | instantiateModel
  | instantiateVariational
  | addNormal (numVars : ℕ)
  | drawNoise (n : ℕ)
  | constructToyData
  | instantiateMFVI
  | runInference (kwargs : List (String × ℕ))
deriving DecidableEq

/-- The keyword arguments of the call inference.run in the source. -/
def runKwargs : List (String × ℕ) :=
  [("n_iter", 250), ("n_minibatch", 5), ("n_print", 10)]

/-- The top-level statements of the script in source order: set the seed to
42, instantiate the model, instantiate the variational family (with the added
mean-field Normal over num_vars = 2 variables), construct the toy data,
instantiate the MFVI inference object, and run it. -/
def scriptSteps : List Step :=
  [Step.setSeed 42, Step.instantiateModel, Step.instantiateVariational,
   Step.addNormal 2, Step.constructToyData, Step.instantiateMFVI,
   Step.runInference runKwargs]

/-- The statements executed inside build_toy_dataset at its default
n_data = 40: set the seed to 0, then draw the 40 noise values. -/
def buildToySteps : List Step := [Step.setSeed 0, Step.drawNoise 40]

/-- The top-level trace with the call to build_toy_dataset expanded in
place. -/
def scriptTrace : List Step :=
  [Step.setSeed 42, Step.instantiateModel, Step.instantiateVariational,
   Step.addNormal 2] ++ buildToySteps ++
    [Step.instantiateMFVI, Step.runInference runKwargs]

/-- Whether a step writes state outside local variables and freshly
constructed objects.  In the source only ed.set_seed writes the global seed;
every other statement binds a local name or mutates an object the script just
created, and the noise draw is modelled as a pure read of the seeded
stream. -/
def writesGlobal : Step → Bool
  | Step.setSeed _ => true
  | _ => false

def stepIsModel : Step → Bool
  | Step.instantiateModel => true
  | _ => false

def stepIsVariational : Step → Bool
  | Step.instantiateVariational => true
  | _ => false

def stepIsData : Step → Bool
  | Step.constructToyData => true
  | _ => false

def stepIsRun : Step → Bool
  | Step.runInference _ => true
  | _ => false

/-- The order asserted by the specification for the top-level sequence:
construct toy data first, then instantiate the model, then the variational
family, then run the inference loop. -/
def specClaimedOrder : Prop :=
  scriptSteps.findIdx stepIsData < scriptSteps.findIdx stepIsModel ∧
  scriptSteps.findIdx stepIsModel < scriptSteps.findIdx stepIsVariational ∧
  scriptSteps.findIdx stepIsVariational < scriptSteps.findIdx stepIsRun

end Edward

namespace Edward

lemma getD_map_of_lt {α β : Type} (f : α → β) (d : α) (e : β) :
    ∀ (l : List α) (i : ℕ), i < l.length → (l.map f).getD i e = f (l.getD i d)
  | a :: _, 0, _ => rfl
  | _ :: t, i + 1, h => getD_map_of_lt f d e t i (Nat.lt_of_succ_lt_succ (by simpa using h))
  | [], i, h => absurd h (by simp)

lemma getD_zipWith_of_lt {α β γ : Type} (f : α → β → γ) (d1 : α) (d2 : β) (d3 : γ) :
    ∀ (l1 : List α) (l2 : List β) (i : ℕ), i < l1.length → i < l2.length →
      (List.zipWith f l1 l2).getD i d3 = f (l1.getD i d1) (l2.getD i d2)
  | _ :: _, _ :: _, 0, _, _ => rfl
  | _ :: t1, _ :: t2, i + 1, h1, h2 =>
      getD_zipWith_of_lt f d1 d2 d3 t1 t2 i
        (Nat.lt_of_succ_lt_succ (by simpa using h1))
        (Nat.lt_of_succ_lt_succ (by simpa using h2))
  | [], _, i, h1, _ => absurd h1 (by simp)
  | _ :: _, [], i, _, h2 => absurd h2 (by simp)

lemma getD_range_of_lt (n i : ℕ) (d : ℕ) (h : i < n) : (List.range n).getD i d = i := by
  rw [List.getD_eq_getElem _ _ (by simpa using h)]
  simp

lemma sq_col (zs : List (ℚ × ℚ)) (s : ℕ) (h : s < zs.length) :
    ∀ xs : List (ℚ × ℚ),
      ((List.zipWith (fun row yi => row.map (fun mu => (mu - yi) ^ 2))
          ((xs.map Prod.snd).map (fun xi => zs.map (fun z => xi * z.1 + z.2)))
          (xs.map Prod.fst)).map (fun row => row.getD s 0)).sum
        = (xs.map (fun p =>
            (p.2 * (zs.getD s (0, 0)).1 + (zs.getD s (0, 0)).2 - p.1) ^ 2)).sum := by
  intro xs
  induction xs with
  | nil => rfl
  | cons p t ih =>
      simp only [List.map_cons, List.zipWith_cons_cons, List.sum_cons, ih]
      congr 1
      rw [List.map_map]
      exact getD_map_of_lt _ (0, 0) 0 zs s h

/-- Entry s of the vector returned by log_prob, in closed form: the negated
sum of squared residuals of the predictions x_i * z_0 + z_1 divided by
lik_variance, plus -prior_variance times the sum of squares of the weight
row z. -/
lemma log_prob_getD (m : LinearModel) (xs zs : List (ℚ × ℚ)) (s : ℕ)
    (h : s < zs.length) :
    (m.log_prob xs zs).getD s 0 =
      -((xs.map (fun p =>
          (p.2 * (zs.getD s (0, 0)).1 + (zs.getD s (0, 0)).2 - p.1) ^ 2)).sum)
        / m.lik_variance
      + -m.prior_variance *
          ((zs.getD s (0, 0)).1 * (zs.getD s (0, 0)).1 +
            (zs.getD s (0, 0)).2 * (zs.getD s (0, 0)).2) := by
  simp only [LinearModel.log_prob]
  rw [getD_zipWith_of_lt _ 0 0 0 _ _ s (by simpa using h) (by simpa using h)]
  rw [getD_map_of_lt _ 0 0 _ s (by simpa using h)]
  rw [getD_range_of_lt _ _ 0 h]
  rw [getD_map_of_lt _ (0, 0) 0 _ s h]
  rw [sq_col zs s h xs]

lemma linspace_length (a b : ℚ) (m : ℕ) : (linspace a b m).length = m := by
  rw [linspace, List.length_map, List.length_range]

/-- The result of log_prob has one entry per row of zs. -/
lemma log_prob_length (m : LinearModel) (xs zs : List (ℚ × ℚ)) :
    (m.log_prob xs zs).length = zs.length := by
  simp [LinearModel.log_prob]

end Edward

namespace Edward

/-- Claim C3: the model fixes num_vars = 2, and log_prob reads entry s of its
result from the weight row zs[s] with zs[s].1 as the slope W multiplying the
input column and zs[s].2 as the intercept b added to every prediction. -/
theorem num_vars_and_slope_intercept :
    (∀ lv pv : ℚ, (LinearModel.init lv pv).num_vars = 2) ∧
    ∀ (m : LinearModel) (xs zs : List (ℚ × ℚ)) (s : ℕ), s < zs.length →
      (m.log_prob xs zs).getD s 0 =
        -((xs.map (fun p =>
            (p.2 * (zs.getD s (0, 0)).1 + (zs.getD s (0, 0)).2 - p.1) ^ 2)).sum)
          / m.lik_variance
        + -m.prior_variance *
            ((zs.getD s (0, 0)).1 * (zs.getD s (0, 0)).1 +
              (zs.getD s (0, 0)).2 * (zs.getD s (0, 0)).2) :=
  ⟨fun _ _ => rfl, log_prob_getD⟩

/-- Witness for C3 at the concrete model with lik_variance 1, prior_variance
2, one data row (y, x) = (1, 2) and one weight row (3, 4): the prediction is
2 * 3 + 4 = 10, the squared residual 81, the prior term -2 * 25 = -50. -/
theorem num_vars_and_slope_intercept_witness :
    (LinearModel.init 1 2).num_vars = 2 ∧
    ((LinearModel.init 1 2).log_prob [(1, 2)] [(3, 4)]).getD 0 0 = -131 := by
  refine ⟨num_vars_and_slope_intercept.1 1 2, ?_⟩
  rw [num_vars_and_slope_intercept.2 (LinearModel.init 1 2) [(1, 2)] [(3, 4)] 0
    (by norm_num)]
  norm_num [LinearModel.init]

/-- Claim C4: evaluating log_prob on any real-valued inputs takes the single
straight-line path of the body, returns a result vector of length S = number
of weight rows, and leaves the model object unchanged. -/
theorem log_prob_total_and_pure (m : LinearModel) (xs zs : List (ℚ × ℚ)) :
    ∃ r : List ℚ, m.log_prob_run xs zs = (r, m) ∧ r.length = zs.length :=
  ⟨m.log_prob xs zs, rfl, log_prob_length m xs zs⟩

/-- Claim C5, counterexample: the order asserted by the specification, toy
data first and model second, is false of the script; the script instantiates
the model before it constructs the toy data. -/
theorem script_order_claim_false : ¬ specClaimedOrder := by
  unfold specClaimedOrder
  decide

/-- Claim C5, amended: the top-level execution is the single linear sequence
instantiate the model, then instantiate the variational family, then
construct the toy data, then run the inference loop. -/
theorem script_order_actual :
    scriptSteps.findIdx stepIsModel < scriptSteps.findIdx stepIsVariational ∧
    scriptSteps.findIdx stepIsVariational < scriptSteps.findIdx stepIsData ∧
    scriptSteps.findIdx stepIsData < scriptSteps.findIdx stepIsRun ∧
    scriptSteps.findIdx stepIsRun < scriptSteps.length := by
  decide

/-- Claim C6: the one call into the run loop of the inference engine passes
exactly the keyword arguments n_iter = 250, n_minibatch = 5, n_print = 10. -/
theorem run_call_exact_kwargs :
    scriptSteps.filter stepIsRun =
      [Step.runInference [("n_iter", 250), ("n_minibatch", 5), ("n_print", 10)]] := by
  decide

/-- Claim C7: in the full trace of the script, with the call to
build_toy_dataset expanded, the only steps that write state outside local
variables and freshly constructed objects are the two seed writes, 42 at the
top level and 0 inside build_toy_dataset, in that order. -/
theorem global_writes_only_set_seed :
    scriptTrace.filter writesGlobal = [Step.setSeed 42, Step.setSeed 0] := by
  decide

/-- Claim C8: the dataset returned by build_toy_dataset does not depend on
the incoming global seed state, because the body sets the seed to 0 before
drawing the noise; hence any two calls with the same arguments return equal
datasets. -/
theorem build_toy_dataset_deterministic (rng : ℕ → ℕ → ℚ) (n : ℕ) (g1 g2 : ℕ) :
    (build_toy_dataset_run rng n g1).1 = (build_toy_dataset_run rng n g2).1 :=
  rfl

/-- Claim C10: with positive lik_variance and prior_variance, every entry of
the vector returned by log_prob is at most zero: each entry is a negated sum
of squares divided by a positive variance plus a negated nonnegative
multiple of a sum of squares. -/
theorem log_prob_entries_nonpos (m : LinearModel)
    (hl : 0 < m.lik_variance) (hp : 0 < m.prior_variance)
    (xs zs : List (ℚ × ℚ)) :
    ∀ v ∈ m.log_prob xs zs, v ≤ 0 := by
  intro v hv
  obtain ⟨i, hi, hget⟩ := List.mem_iff_getElem.mp hv
  have hiz : i < zs.length := by
    have := log_prob_length m xs zs
    omega
  have hv' : v = (m.log_prob xs zs).getD i 0 := by
    rw [List.getD_eq_getElem _ _ hi, hget]
  rw [hv', log_prob_getD m xs zs i hiz]
  have h1 : 0 ≤ (xs.map (fun p =>
      (p.2 * (zs.getD i (0, 0)).1 + (zs.getD i (0, 0)).2 - p.1) ^ 2)).sum := by
    refine List.sum_nonneg ?_
    intro a ha
    obtain ⟨p, _, hpa⟩ := List.mem_map.mp ha
    rw [← hpa]
    positivity
  have h2 : 0 ≤ (zs.getD i (0, 0)).1 * (zs.getD i (0, 0)).1 +
      (zs.getD i (0, 0)).2 * (zs.getD i (0, 0)).2 :=
    add_nonneg (mul_self_nonneg _) (mul_self_nonneg _)
  have hterm1 : -((xs.map (fun p =>
      (p.2 * (zs.getD i (0, 0)).1 + (zs.getD i (0, 0)).2 - p.1) ^ 2)).sum)
        / m.lik_variance ≤ 0 :=
    div_nonpos_of_nonpos_of_nonneg (neg_nonpos.mpr h1) hl.le
  have hterm2 : -m.prior_variance * ((zs.getD i (0, 0)).1 * (zs.getD i (0, 0)).1 +
      (zs.getD i (0, 0)).2 * (zs.getD i (0, 0)).2) ≤ 0 :=
    mul_nonpos_of_nonpos_of_nonneg (neg_nonpos.mpr hp.le) h2
  linarith

/-- Witness for C10 at the default model and a concrete dataset and weight
matrix: both variances 0.01 are positive and every entry of the result is at
most zero. -/
theorem log_prob_entries_nonpos_witness :
    0 < (LinearModel.init 0.01 0.01).lik_variance ∧
    0 < (LinearModel.init 0.01 0.01).prior_variance ∧
    ∀ v ∈ (LinearModel.init 0.01 0.01).log_prob [(1, 2), (3, 4)] [(5, 6), (7, 8)],
      v ≤ 0 :=
  ⟨by norm_num [LinearModel.init], by norm_num [LinearModel.init],
    log_prob_entries_nonpos (LinearModel.init 0.01 0.01)
      (by norm_num [LinearModel.init]) (by norm_num [LinearModel.init])
      [(1, 2), (3, 4)] [(5, 6), (7, 8)]⟩

end Edward

namespace Edward

/-- Claim C2: for every even positive n_data, build_toy_dataset returns a
table of n_data rows whose first column is the output y_i = 0.075 * x_i +
noise_i and whose second column is the rescaled input (x_i - 4) / 4, with
x_i the i-th point of the two concatenated linspaces. -/
theorem build_toy_dataset_shape (n : ℕ) (hpos : 0 < n) (heven : n % 2 = 0)
    (noise : ℕ → ℚ) :
    ∃ t : List (ℚ × ℚ), build_toy_dataset n noise = some t ∧ t.length = n ∧
      ∀ i < n, t.getD i (0, 0) =
        (0.075 * toy_x n i + noise i, (toy_x n i - 4.0) / 4.0) := by
  have hx : (linspace 0 2 (n / 2) ++ linspace 6 8 (n / 2)).length = n := by
    rw [List.length_append, linspace_length, linspace_length]
    omega
  have hrvs : ((List.range n).map noise).length = n := by simp
  simp only [build_toy_dataset]
  rw [if_pos (by rw [hx, hrvs])]
  have hylen : (List.zipWith (fun xi e => 0.075 * xi + e)
      (linspace 0 2 (n / 2) ++ linspace 6 8 (n / 2))
      ((List.range n).map noise)).length = n := by
    rw [List.length_zipWith, hx, hrvs, Nat.min_self]
  have hxrlen : ((linspace 0 2 (n / 2) ++ linspace 6 8 (n / 2)).map
      (fun v => (v - 4.0) / 4.0)).length = n := by
    rw [List.length_map, hx]
  rw [if_pos ⟨hxrlen, hylen⟩]
  refine ⟨_, rfl, ?_, ?_⟩
  · rw [List.length_zipWith, hylen, hxrlen, Nat.min_self]
  · intro i hi
    rw [getD_zipWith_of_lt _ 0 0 (0, 0) _ _ i (by rw [hylen]; exact hi)
      (by rw [hxrlen]; exact hi)]
    rw [getD_zipWith_of_lt _ 0 0 0 _ _ i (by rw [hx]; exact hi)
      (by rw [hrvs]; exact hi)]
    rw [getD_map_of_lt _ 0 0 _ i (by simpa using hi)]
    rw [getD_range_of_lt _ _ 0 hi]
    rw [getD_map_of_lt _ 0 0 _ i (by rw [hx]; exact hi)]
    rfl

/-- Witness for C2 at n_data = 2 with the zero noise stream: the two
linspaces are the single points 0 and 6, so the table is
[(0, -1), (0.45, 0.5)]. -/
theorem build_toy_dataset_shape_witness :
    ∃ t : List (ℚ × ℚ), build_toy_dataset 2 (fun _ => 0) = some t ∧
      t.length = 2 ∧
      ∀ i < 2, t.getD i (0, 0) =
        (0.075 * toy_x 2 i + (fun _ => (0 : ℚ)) i, (toy_x 2 i - 4.0) / 4.0) :=
  build_toy_dataset_shape 2 (by norm_num) (by norm_num) (fun _ => 0)

/-- Claim C9: for every odd n_data the two linspaces of n_data / 2 points
each concatenate to only n_data - 1 values, so the elementwise combination
with the n_data noise draws and the reshape to (n_data, 1) cannot succeed
and build_toy_dataset fails rather than returning a dataset. -/
theorem build_toy_dataset_odd_fails (n : ℕ) (h : Odd n) (noise : ℕ → ℚ) :
    (linspace 0 2 (n / 2) ++ linspace 6 8 (n / 2)).length = n - 1 ∧
    build_toy_dataset n noise = none := by
  have hmod : n % 2 = 1 := Nat.odd_iff.mp h
  have hx : (linspace 0 2 (n / 2) ++ linspace 6 8 (n / 2)).length = n - 1 := by
    rw [List.length_append, linspace_length, linspace_length]
    omega
  refine ⟨hx, ?_⟩
  simp only [build_toy_dataset]
  rw [if_neg]
  rw [hx, List.length_map, List.length_range]
  omega

/-- Witness for C9 at n_data = 3 with the zero noise stream: the linspaces
hold one point each, 2 values in total, and the build fails. -/
theorem build_toy_dataset_odd_fails_witness :
    (linspace 0 2 (3 / 2) ++ linspace 6 8 (3 / 2)).length = 3 - 1 ∧
    build_toy_dataset 3 (fun _ => 0) = none :=
  build_toy_dataset_odd_fails 3 (Nat.odd_iff.mpr (by norm_num)) (fun _ => 0)

end Edward

namespace Edward

/-- Claim C1: at the data table [(0, 0)] and weight matrix [(0, 0)] with the
default variances 0.01, log_prob returns [0], while the closed-form Gaussian
log-likelihood plus Gaussian log-prior at the same input is the nonzero value
-3 * log (sqrt (2 * pi * 0.01)).  The code drops the normalization constants
and the factors 1 / 2, and multiplies the prior sum of squares by
prior_variance instead of dividing by it, contradicting its own docstring,
which promises the vector of values log p(xs, zs[s]). -/
theorem log_prob_not_gaussian_log_joint :
    (LinearModel.init 0.01 0.01).log_prob [(0, 0)] [(0, 0)] = [0] ∧
    gaussianLogJoint 0.01 0.01 [(0, 0)] (0, 0) ≠ 0 := by
  constructor
  · norm_num [LinearModel.log_prob, LinearModel.init, List.range_succ]
  · have hpos : (0 : ℝ) < 2 * Real.pi * 0.01 := by positivity
    have hne1 : 2 * Real.pi * 0.01 ≠ 1 := by
      intro heq
      nlinarith [Real.pi_lt_d2]
    have hs0 : Real.sqrt (2 * Real.pi * 0.01) ≠ 0 :=
      (Real.sqrt_pos.mpr hpos).ne'
    have hs1 : Real.sqrt (2 * Real.pi * 0.01) ≠ 1 := fun hc =>
      hne1 (Real.sqrt_eq_one.mp hc)
    have hlog : Real.log (Real.sqrt (2 * Real.pi * 0.01)) ≠ 0 := by
      intro hc
      rcases Real.log_eq_zero.mp hc with h0 | h0 | h0
      · exact hs0 h0
      · exact hs1 h0
      · nlinarith [Real.sqrt_nonneg (2 * Real.pi * 0.01)]
    have hval : gaussianLogJoint 0.01 0.01 [(0, 0)] (0, 0) =
        -(3 * Real.log (Real.sqrt (2 * Real.pi * 0.01))) := by
      simp [gaussianLogJoint, normalLogPdf]
      ring
    rw [hval]
    intro hc
    apply hlog
    linarith [neg_eq_zero.mp hc]

end Edward
